import Mathlib

/-
  Verification of the Metric Derivation and Multi-Factor Ranking Engine of
  the stocks-dashboard repository, src/main.py, as a shallow embedding.

  Numbers are modelled as rationals.  A yfinance info dictionary entry
  read with a default, such as info.get(beta, 1.0), distinguishes a
  missing key, where the default is used, from a key that is present with
  value None, where the default is NOT used and the None value flows into
  arithmetic, raising TypeError, which the per-entity except handler turns
  into a skipped entity.  Those four fields are therefore modelled as
  Option over Option of rationals: none = key absent, some none = key
  present with null, some of some q = key present with number q.  Every
  other field is read with a plain info.get or scanned from a DataFrame,
  for which a missing key and a null value are both Python None, so a
  plain Option of a rational suffices.  Python truthiness of a number,
  where None and 0 are both falsy, is modelled by truthy.  A derivation
  that raises is the value none of type Option Row.
-/

/- Module-level constants, src/main.py lines 23-26. -/

def risk_free_rate : ℚ := 65 / 1000

def market_risk_premium : ℚ := 6 / 100

def assumed_eps_growth : ℚ := 21 / 100

def assumed_cost_of_debt : ℚ := 8 / 100

/-- Raw per-entity fundamentals, the inputs read inside fetch_stock_data,
src/main.py lines 40-79: the info dictionary fields plus the net-income
and operating-cash-flow values scanned from the financial statements. -/
structure Info where
  returnOnEquity : Option ℚ
  trailingPE : Option ℚ
  forwardPE : Option ℚ
  priceToBook : Option ℚ
  debtToEquity : Option ℚ
  dividendYield : Option ℚ
  marketCap : Option ℚ
  currentPrice : Option ℚ
  beta : Option (Option ℚ)
  ebit : Option ℚ
  ebitda : Option ℚ
  taxRate : Option (Option ℚ)
  totalDebt : Option (Option ℚ)
  totalStockholderEquity : Option (Option ℚ)
  netIncome : Option ℚ
  cfo : Option ℚ
  deriving DecidableEq

/-- Python truthiness of an optional number: None and 0 are falsy. -/
def truthy : Option ℚ → Bool
  | none => false
  | some q => q != 0

/-- beta = info.get(beta, 1.0), src/main.py line 67: default 1.0 only when
the key is absent; a present null stays null and later raises. -/
def getBeta (i : Info) : Option ℚ :=
  match i.beta with
  | none => some 1
  | some v => v

/-- tax_rate = info.get(taxRate, 0.25), src/main.py line 75. -/
def getTaxRate (i : Info) : Option ℚ :=
  match i.taxRate with
  | none => some (25 / 100)
  | some v => v

/-- total_debt = info.get(totalDebt, 0), src/main.py line 78. -/
def getTotalDebt (i : Info) : Option ℚ :=
  match i.totalDebt with
  | none => some 0
  | some v => v

/-- total_equity = info.get(totalStockholderEquity, 0), src/main.py line 79. -/
def getTotalEquity (i : Info) : Option ℚ :=
  match i.totalStockholderEquity with
  | none => some 0
  | some v => v

/-- earnings_quality = cfo >= net_income if net_income and cfo else None,
src/main.py line 57: defined only when BOTH values are truthy, that is,
present and nonzero. -/
def earnings_quality (net_income cfo : Option ℚ) : Option Bool :=
  if truthy net_income && truthy cfo then
    some (decide (net_income.getD 0 ≤ cfo.getD 0))
  else none

/-- One row of the DataFrame built by fetch_stock_data, src/main.py
lines 90-108; none is a NaN or None cell. -/
structure Row where
  company : String
  pe : Option ℚ
  industryPE : Option ℚ
  peg : Option ℚ
  roePct : Option ℚ
  coePct : ℚ
  roeSpread : Option ℚ
  roic : Option ℚ
  waccPct : Option ℚ
  roicSpread : Option ℚ
  pb : Option ℚ
  de : Option ℚ
  divYieldPct : Option ℚ
  mcapCr : Option ℚ
  price : Option ℚ
  eqFlag : String
  eqScore : Option ℚ
  deriving DecidableEq

/-- The body of the per-ticker loop of fetch_stock_data, src/main.py
lines 34-111.  Returns none when the body raises, in which case the
except handler skips the entity: this happens exactly when a defaulted
key is present with a null value and that null reaches arithmetic,
namely beta null at line 69, totalDebt or totalStockholderEquity null at
line 80, or taxRate null while it is used, at line 77 when ebit is
truthy or at line 87 when invested capital is nonzero. -/
def fetch_one (name : String) (i : Info) : Option Row :=
  let eq := earnings_quality i.netIncome i.cfo
  (getBeta i).bind fun beta =>
  let cost_of_equity := risk_free_rate + beta * market_risk_premium
  let pegVal := if truthy i.trailingPE then
      some (i.trailingPE.getD 0 / (assumed_eps_growth * 100)) else none
  let roe_percent := if truthy i.returnOnEquity then
      some (i.returnOnEquity.getD 0 * 100) else none
  let roe_spread := if truthy roe_percent then
      some (roe_percent.getD 0 - cost_of_equity * 100) else none
  let ebitVal := if truthy i.ebit then i.ebit else i.ebitda
  let tax_rate := getTaxRate i
  ((if truthy ebitVal then
      tax_rate.map (fun tr => some (ebitVal.getD 0 * (1 - tr)))
    else some none : Option (Option ℚ))).bind fun nopat =>
  (getTotalDebt i).bind fun total_debt =>
  (getTotalEquity i).bind fun total_equity =>
  let invested_capital := total_debt + total_equity
  let roicVal := if truthy nopat && (invested_capital != 0) then
      some (nopat.getD 0 / invested_capital * 100) else none
  let equity_weight := if invested_capital != 0 then total_equity / invested_capital else 0
  let debt_weight := if invested_capital != 0 then total_debt / invested_capital else 0
  ((if invested_capital != 0 then
      tax_rate.map (fun tr =>
        some (equity_weight * cost_of_equity + debt_weight * assumed_cost_of_debt * (1 - tr)))
    else some none : Option (Option ℚ))).bind fun wacc =>
  let roic_spread := if truthy roicVal && truthy wacc then
      some (roicVal.getD 0 - wacc.getD 0 * 100) else none
  some
    { company := name
      pe := i.trailingPE
      industryPE := i.forwardPE
      peg := pegVal
      roePct := roe_percent
      coePct := cost_of_equity * 100
      roeSpread := roe_spread
      roic := roicVal
      waccPct := if truthy wacc then some (wacc.getD 0 * 100) else none
      roicSpread := roic_spread
      pb := i.priceToBook
      de := i.debtToEquity
      divYieldPct := if truthy i.dividendYield then
          some (i.dividendYield.getD 0 * 100) else none
      mcapCr := if truthy i.marketCap then some (i.marketCap.getD 0 / 10000000) else none
      price := i.currentPrice
      eqFlag :=
        match eq with
        | some true => "✔"
        | some false => "✖"
        | none => "N/A"
      eqScore :=
        match eq with
        | some true => some 1
        | some false => some 0
        | none => none }

/-- fetch_stock_data, src/main.py lines 30-113: entities whose loop body
raised are skipped, the rest are appended in order. -/
def fetch_stock_data (inputs : List (String × Info)) : List Row :=
  inputs.filterMap (fun p => fetch_one p.1 p.2)

/- Ranking machinery.  pandas Series.rank assigns ordinal positions 1..n
in sorted order, with NaN excluded, and resolves a tie group by the
chosen method: the default method average takes the mean of the
positions the group occupies, and method min takes the lowest one. -/

/-- Ascending sort of the defined values of a column. -/
def sortedAsc (l : List ℚ) : List ℚ := List.insertionSort (fun a b => a ≤ b) l

/-- Descending sort of the defined values of a column; this is the order
used by rank with ascending set to False. -/
def sortedDesc (l : List ℚ) : List ℚ := List.insertionSort (fun a b => b ≤ a) l

/-- Index of the first occurrence of x. -/
def idxOfQ (x : ℚ) : List ℚ → ℕ
  | [] => 0
  | a :: t => if a = x then 0 else idxOfQ x t + 1

/-- The 1-based positions a value occupies in a list. -/
def tiePositions (s : List ℚ) (x : ℚ) : List ℕ :=
  ((List.range s.length).filter (fun n => s.get? n = some x)).map (fun n => n + 1)

/-- Tie method min: the lowest position of the tie group, that is the
1-based position of the first occurrence in the sorted list. -/
def rankMin (s : List ℚ) (x : ℚ) : ℕ := idxOfQ x s + 1

/-- Tie method average, the pandas default: the mean of the positions the
tie group occupies in the sorted list. -/
def rankAvg (s : List ℚ) (x : ℚ) : ℚ :=
  (((tiePositions s x).map (fun n : ℕ => (n : ℚ))).sum) / ((tiePositions s x).length : ℚ)

/-- A column score from rank with ascending True, src/main.py line 125:
NaN cells get NaN, defined cells get the average-method rank over the
defined cells of the column. -/
def colScoreAsc (rows : List Row) (f : Row → Option ℚ) (r : Row) : Option ℚ :=
  (f r).map (fun x => rankAvg (sortedAsc (rows.filterMap f)) x)

/-- A column score from rank with ascending False, src/main.py line 128. -/
def colScoreDesc (rows : List Row) (f : Row → Option ℚ) (r : Row) : Option ℚ :=
  (f r).map (fun x => rankAvg (sortedDesc (rows.filterMap f)) x)

/-- The ascending-ranked factor columns, loop of src/main.py line 124. -/
def ascFactors : List (Row → Option ℚ) := [Row.peg, Row.pe, Row.pb, Row.de]

/-- The descending-ranked factor columns, loop of src/main.py line 127. -/
def descFactors : List (Row → Option ℚ) := [Row.roeSpread, Row.roicSpread, Row.divYieldPct]

/-- The eight score columns of one row, src/main.py lines 124-130: seven
rank scores plus the Earnings Quality Score used directly as a scalar. -/
def factorScores (rows : List Row) (r : Row) : List (Option ℚ) :=
  (ascFactors.map fun f => colScoreAsc rows f r) ++
    (descFactors.map fun f => colScoreDesc rows f r) ++ [r.eqScore]

/-- Total Score, src/main.py lines 132-134.  pandas DataFrame.sum over
axis 1 has skipna True and min_count 0, so NaN scores contribute 0 and a
row whose scores are ALL NaN sums to 0 rather than NaN; the result is
never NaN, hence always some. -/
def totalScore (rows : List Row) (r : Row) : Option ℚ :=
  some (((factorScores rows r).filterMap id).sum)

/-- The notna filter on the Total Score column, src/main.py line 136. -/
def rankedRows (rows : List Row) : List Row :=
  rows.filter (fun r => (totalScore rows r).isSome)

/-- The Total Score column of the filtered frame. -/
def totalScores (rows : List Row) : List ℚ :=
  (rankedRows rows).filterMap (fun r => totalScore rows r)

/-- Rank = rank of Total Score with method min, src/main.py line 137:
ascending min-method competition rank. -/
def finalRank (rows : List Row) (r : Row) : Option ℕ :=
  (totalScore rows r).map (fun t => rankMin (sortedAsc (totalScores rows)) t)

/-- sort_values on the Rank column, src/main.py line 138.  The default
kind of sort_values is numpy quicksort, whose order among equal keys is
not specified; the model uses a concrete sort keyed on Rank. -/
def rankedOutput (rows : List Row) : List Row :=
  List.insertionSort
    (fun a b => (finalRank rows a).getD 0 ≤ (finalRank rows b).getD 0) (rankedRows rows)

/-- The module-level run, src/main.py lines 116-138: fetch, then stop
with an error when the DataFrame is empty, else rank. -/
def runDashboard (inputs : List (String × Info)) : Except String (List Row) :=
  let df := fetch_stock_data inputs
  if df.isEmpty then Except.error "Failed to fetch stock data."
  else Except.ok (rankedOutput df)

/-- The guard pattern: the row cell is not None and is below c. -/
def someLt (o : Option ℚ) (c : ℚ) : Bool :=
  match o with
  | some v => decide (v < c)
  | none => false

/-- The guard pattern: the row cell is not None and is above c. -/
def someGt (o : Option ℚ) (c : ℚ) : Bool :=
  match o with
  | some v => decide (c < v)
  | none => false

/-- generate_summary, src/main.py lines 166-198: positives and cautions
accumulated in the fixed order of the checks. -/
def generate_summary (row : Row) : List String × List String :=
  let positives : List String :=
    (if someLt row.peg 1 then ["✔ PEG < 1"] else []) ++
    (if someGt row.roeSpread 0 then ["✔ ROE exceeds Cost of Equity"] else []) ++
    (if someGt row.roicSpread 0 then ["✔ ROIC exceeds WACC"] else []) ++
    (if someLt row.de 1 then ["✔ Low Debt-to-Equity"] else []) ++
    (if someGt row.divYieldPct 1 then ["✔ Healthy Dividend Yield"] else []) ++
    (if row.eqFlag = "✔" then ["✔ Strong Earnings Quality (CFO ≥ Net Profit)"] else [])
  let cautions : List String :=
    (if someLt row.peg 1 then [] else ["⚠ PEG ≥ 1 or unavailable"]) ++
    (if someGt row.roeSpread 0 then [] else ["⚠ ROE ≤ CoE"]) ++
    (if someGt row.roicSpread 0 then [] else ["⚠ ROIC ≤ WACC"]) ++
    (if someLt row.de 1 then [] else ["⚠ High Debt"]) ++
    (if row.eqFlag = "✖" then ["⚠ Weak Earnings Quality (CFO < Net Profit)"] else [])
  (positives, cautions)

/-- The row produced by a successful loop body, written without the
monadic binds: the values b, t, d, e are the resolved beta, tax rate,
total debt and total equity. -/
def mkRow (name : String) (i : Info) (b t d e : ℚ) : Row :=
  let eq := earnings_quality i.netIncome i.cfo
  let cost_of_equity := risk_free_rate + b * market_risk_premium
  let pegVal := if truthy i.trailingPE then
      some (i.trailingPE.getD 0 / (assumed_eps_growth * 100)) else none
  let roe_percent := if truthy i.returnOnEquity then
      some (i.returnOnEquity.getD 0 * 100) else none
  let roe_spread := if truthy roe_percent then
      some (roe_percent.getD 0 - cost_of_equity * 100) else none
  let ebitVal := if truthy i.ebit then i.ebit else i.ebitda
  let nopat := if truthy ebitVal then some (ebitVal.getD 0 * (1 - t)) else none
  let invested_capital := d + e
  let roicVal := if truthy nopat && (invested_capital != 0) then
      some (nopat.getD 0 / invested_capital * 100) else none
  let equity_weight := if invested_capital != 0 then e / invested_capital else 0
  let debt_weight := if invested_capital != 0 then d / invested_capital else 0
  let wacc := if invested_capital != 0 then
      some (equity_weight * cost_of_equity + debt_weight * assumed_cost_of_debt * (1 - t))
    else none
  let roic_spread := if truthy roicVal && truthy wacc then
      some (roicVal.getD 0 - wacc.getD 0 * 100) else none
  { company := name
    pe := i.trailingPE
    industryPE := i.forwardPE
    peg := pegVal
    roePct := roe_percent
    coePct := cost_of_equity * 100
    roeSpread := roe_spread
    roic := roicVal
    waccPct := if truthy wacc then some (wacc.getD 0 * 100) else none
    roicSpread := roic_spread
    pb := i.priceToBook
    de := i.debtToEquity
    divYieldPct := if truthy i.dividendYield then
        some (i.dividendYield.getD 0 * 100) else none
    mcapCr := if truthy i.marketCap then some (i.marketCap.getD 0 / 10000000) else none
    price := i.currentPrice
    eqFlag :=
      match eq with
      | some true => "✔"
      | some false => "✖"
      | none => "N/A"
    eqScore :=
      match eq with
      | some true => some 1
      | some false => some 0
      | none => none }

/-- The beta value actually used in the cost of equity of a successful
derivation: the stored number, or 1 when the key is absent. -/
def betaEff (i : Info) : ℚ := (getBeta i).getD 1

/- Concrete inputs used by counterexamples and witnesses. -/

/-- A row with every optional cell missing. -/
def blankRow (nm : String) : Row :=
  { company := nm, pe := none, industryPE := none, peg := none, roePct := none,
    coePct := 0, roeSpread := none, roic := none, waccPct := none, roicSpread := none,
    pb := none, de := none, divYieldPct := none, mcapCr := none, price := none,
    eqFlag := "N/A", eqScore := none }

def exC1r1 : Row := { blankRow "A" with peg := some 2 }

def exC1r2 : Row := { blankRow "B" with peg := some 2 }

def exC1r3 : Row := { blankRow "C" with peg := some 5 }

/-- Three entities whose PEG column is 2, 2, 5. -/
def exC1 : List Row := [exC1r1, exC1r2, exC1r3]

def exC6r1 : Row := { blankRow "A" with eqScore := some 3 }

def exC6r2 : Row := { blankRow "B" with eqScore := some 3 }

def exC6r3 : Row := { blankRow "C" with eqScore := some 5 }

/-- Three entities whose Total Scores come out 3, 3, 5. -/
def exC6 : List Row := [exC6r1, exC6r2, exC6r3]

def exC2a : Row := { blankRow "A" with eqScore := some 2 }

/-- An entity with every factor unavailable. -/
def exC2b : Row := blankRow "B"

def exC2 : List Row := [exC2a, exC2b]

/-- A fundamentals record with every field absent. -/
def blankInfo : Info :=
  { returnOnEquity := none, trailingPE := none, forwardPE := none, priceToBook := none,
    debtToEquity := none, dividendYield := none, marketCap := none, currentPrice := none,
    beta := none, ebit := none, ebitda := none, taxRate := none, totalDebt := none,
    totalStockholderEquity := none, netIncome := none, cfo := none }

/-- A record carrying only statement data: net income 1 and CFO 2. -/
def infoW : Info := { blankInfo with netIncome := some 1, cfo := some 2 }

/-- The row fetch_one produces from infoW. -/
def rowW : Row :=
  { company := "X", pe := none, industryPE := none, peg := none, roePct := none,
    coePct := 25 / 2, roeSpread := none, roic := none, waccPct := none, roicSpread := none,
    pb := none, de := none, divYieldPct := none, mcapCr := none, price := none,
    eqFlag := "✔", eqScore := some 1 }

/-- A record whose beta key is present with a null value. -/
def infoC5 : Info := { blankInfo with beta := some none }

/-- A record with every field present, and returnOnEquity present with
the value 0. -/
def infoC3 : Info :=
  { returnOnEquity := some 0, trailingPE := some 10, forwardPE := some 12,
    priceToBook := some 2, debtToEquity := some 1, dividendYield := some (2 / 100),
    marketCap := some 1000000000, currentPrice := some 100, beta := some (some 1),
    ebit := some 100, ebitda := some 120, taxRate := some (some (1 / 4)),
    totalDebt := some (some 50), totalStockholderEquity := some (some 50),
    netIncome := some 10, cfo := some 12 }

/-- infoC3 with a nonzero return on equity. -/
def infoC3w : Info := { infoC3 with returnOnEquity := some (15 / 100) }

/-- A record whose totalDebt key is present with a null value, so its
derivation raises and the fetched DataFrame is empty. -/
def infoC8 : Info := { blankInfo with totalDebt := some none }

instance : IsTotal ℚ (fun a b : ℚ => b ≤ a) := ⟨fun a b => le_total b a⟩

instance : IsTrans ℚ (fun a b : ℚ => b ≤ a) := ⟨fun _ _ _ h1 h2 => le_trans h2 h1⟩

/- General lemmas about the ranking machinery. -/

theorem countP_sortedAsc (l : List ℚ) (p : ℚ → Bool) : (sortedAsc l).countP p = l.countP p :=
  (List.perm_insertionSort _ l).countP_eq p

theorem count_sortedAsc (l : List ℚ) (x : ℚ) : (sortedAsc l).count x = l.count x :=
  (List.perm_insertionSort _ l).count_eq x

theorem countP_sortedDesc (l : List ℚ) (p : ℚ → Bool) : (sortedDesc l).countP p = l.countP p :=
  (List.perm_insertionSort _ l).countP_eq p

theorem count_sortedDesc (l : List ℚ) (x : ℚ) : (sortedDesc l).count x = l.count x :=
  (List.perm_insertionSort _ l).count_eq x

theorem mem_sortedAsc (l : List ℚ) (x : ℚ) (hx : x ∈ l) : x ∈ sortedAsc l :=
  (List.perm_insertionSort _ l).mem_iff.mpr hx

theorem mem_sortedDesc (l : List ℚ) (x : ℚ) (hx : x ∈ l) : x ∈ sortedDesc l :=
  (List.perm_insertionSort _ l).mem_iff.mpr hx

theorem idxOfQ_sorted_asc :
    ∀ s : List ℚ, List.Sorted (fun a b : ℚ => a ≤ b) s → ∀ x : ℚ, x ∈ s →
      idxOfQ x s = s.countP (fun y => decide (y < x)) := by
  intro s
  induction s with
  | nil => intro _ x hx; cases hx
  | cons a t ih =>
      intro hs x hx
      rw [List.sorted_cons] at hs
      obtain ⟨ha, ht⟩ := hs
      by_cases hax : a = x
      · subst hax
        have h0 : t.countP (fun y => decide (y < a)) = 0 :=
          List.countP_eq_zero.mpr (fun y hy => by simp [not_lt.mpr (ha y hy)])
        simp [idxOfQ, List.countP_cons, h0]
      · have hxt : x ∈ t := by
          rcases List.mem_cons.mp hx with h | h
          · exact absurd h.symm hax
          · exact h
        have hax' : a < x := lt_of_le_of_ne (ha x hxt) hax
        simp [idxOfQ, hax, List.countP_cons, hax', ih ht x hxt]

theorem idxOfQ_sorted_desc :
    ∀ s : List ℚ, List.Sorted (fun a b : ℚ => b ≤ a) s → ∀ x : ℚ, x ∈ s →
      idxOfQ x s = s.countP (fun y => decide (x < y)) := by
  intro s
  induction s with
  | nil => intro _ x hx; cases hx
  | cons a t ih =>
      intro hs x hx
      rw [List.sorted_cons] at hs
      obtain ⟨ha, ht⟩ := hs
      by_cases hax : a = x
      · subst hax
        have h0 : t.countP (fun y => decide (a < y)) = 0 :=
          List.countP_eq_zero.mpr (fun y hy => by simp [not_lt.mpr (ha y hy)])
        simp [idxOfQ, List.countP_cons, h0]
      · have hxt : x ∈ t := by
          rcases List.mem_cons.mp hx with h | h
          · exact absurd h.symm hax
          · exact h
        have hax' : x < a := lt_of_le_of_ne (ha x hxt) (fun h => hax h.symm)
        simp [idxOfQ, hax, List.countP_cons, hax', ih ht x hxt]

theorem map_succ_range' (s n : ℕ) :
    (List.range' s n).map (fun k => k + 1) = List.range' (s + 1) n := by
  have h := List.map_add_range' 1 s n 1
  simpa [add_comm] using h

theorem filter_indices_sorted_asc :
    ∀ s : List ℚ, List.Sorted (fun a b : ℚ => a ≤ b) s → ∀ x : ℚ,
      (List.range s.length).filter (fun n => s.get? n = some x) =
        List.range' (s.countP (fun y => decide (y < x))) (s.count x) := by
  intro s
  induction s with
  | nil => intro _ x; rfl
  | cons a t ih =>
      intro hs x
      rw [List.sorted_cons] at hs
      obtain ⟨ha, ht⟩ := hs
      have hmap : ((List.range t.length).map Nat.succ).filter
          (fun n => (a :: t).get? n = some x) =
          ((List.range t.length).filter (fun n => t.get? n = some x)).map Nat.succ := by
        rw [List.filter_map]
        rfl
      rw [List.length_cons, List.range_succ_eq_map, List.filter_cons, hmap, ih ht x,
        List.countP_cons]
      by_cases hax : a = x
      · subst hax
        have h0 : t.countP (fun y => decide (y < a)) = 0 :=
          List.countP_eq_zero.mpr (fun y hy => by simp [not_lt.mpr (ha y hy)])
        rw [List.count_cons_self, h0]
        simp only [List.get?_cons_zero, lt_self_iff_false, decide_False, if_false,
          Nat.zero_add, Nat.add_zero]
        rw [List.range'_succ]
        have h1 : (List.range' 0 (t.count a)).map (fun k => k + 1) =
            List.range' 1 (t.count a) := by
          have h := List.map_add_range' 1 0 (t.count a) 1
          simpa [add_comm] using h
        simp [Nat.succ_eq_add_one, h1]
      · have hzero : ((a :: t).get? 0 = some x) = False := by simp [hax]
        rw [List.count_cons_of_ne (fun h => hax h.symm)]
        simp only [hzero, decide_False, if_false]
        by_cases halt : a < x
        · simp only [halt, decide_True, if_true]
          have h := List.map_add_range' 1 (t.countP fun y => decide (y < x)) (t.count x) 1
          simpa [add_comm, Nat.succ_eq_add_one] using h
        · have hxa : x < a := lt_of_le_of_ne (not_lt.mp halt) (fun h => hax h.symm)
          have hc0 : t.count x = 0 := by
            rw [List.count_eq_zero]
            intro hmem
            exact absurd (ha x hmem) (not_le.mpr hxa)
          simp [halt, hc0]

theorem filter_indices_sorted_desc :
    ∀ s : List ℚ, List.Sorted (fun a b : ℚ => b ≤ a) s → ∀ x : ℚ,
      (List.range s.length).filter (fun n => s.get? n = some x) =
        List.range' (s.countP (fun y => decide (x < y))) (s.count x) := by
  intro s
  induction s with
  | nil => intro _ x; rfl
  | cons a t ih =>
      intro hs x
      rw [List.sorted_cons] at hs
      obtain ⟨ha, ht⟩ := hs
      have hmap : ((List.range t.length).map Nat.succ).filter
          (fun n => (a :: t).get? n = some x) =
          ((List.range t.length).filter (fun n => t.get? n = some x)).map Nat.succ := by
        rw [List.filter_map]
        rfl
      rw [List.length_cons, List.range_succ_eq_map, List.filter_cons, hmap, ih ht x,
        List.countP_cons]
      by_cases hax : a = x
      · subst hax
        have h0 : t.countP (fun y => decide (a < y)) = 0 :=
          List.countP_eq_zero.mpr (fun y hy => by simp [not_lt.mpr (ha y hy)])
        rw [List.count_cons_self, h0]
        simp only [List.get?_cons_zero, lt_self_iff_false, decide_False, if_false,
          Nat.zero_add, Nat.add_zero]
        rw [List.range'_succ]
        have h1 : (List.range' 0 (t.count a)).map (fun k => k + 1) =
            List.range' 1 (t.count a) := by
          have h := List.map_add_range' 1 0 (t.count a) 1
          simpa [add_comm] using h
        simp [Nat.succ_eq_add_one, h1]
      · have hzero : ((a :: t).get? 0 = some x) = False := by simp [hax]
        rw [List.count_cons_of_ne (fun h => hax h.symm)]
        simp only [hzero, decide_False, if_false]
        by_cases halt : x < a
        · simp only [halt, decide_True, if_true]
          have h := List.map_add_range' 1 (t.countP fun y => decide (x < y)) (t.count x) 1
          simpa [add_comm, Nat.succ_eq_add_one] using h
        · have hxa : a < x := lt_of_le_of_ne (not_lt.mp halt) hax
          have hc0 : t.count x = 0 := by
            rw [List.count_eq_zero]
            intro hmem
            exact absurd (ha x hmem) (not_le.mpr hxa)
          simp [halt, hc0]

theorem sum_range'_cast (a m : ℕ) :
    (((List.range' a m).map (fun n : ℕ => (n : ℚ))).sum) * 2 = (m : ℚ) * (2 * a + m - 1) := by
  induction m generalizing a with
  | zero => simp
  | succ m ih =>
      rw [List.range'_succ]
      simp only [List.map_cons, List.sum_cons]
      have h := ih (a + 1)
      push_cast at h ⊢
      linear_combination h

theorem rankMin_sortedAsc (l : List ℚ) (x : ℚ) (hx : x ∈ l) :
    rankMin (sortedAsc l) x = l.countP (fun y => decide (y < x)) + 1 := by
  unfold rankMin
  rw [idxOfQ_sorted_asc (sortedAsc l) (List.sorted_insertionSort _ l) x (mem_sortedAsc l x hx),
    countP_sortedAsc]

theorem tiePositions_sortedAsc (l : List ℚ) (x : ℚ) :
    tiePositions (sortedAsc l) x =
      (List.range' (l.countP (fun y => decide (y < x))) (l.count x)).map (fun n => n + 1) := by
  unfold tiePositions
  rw [filter_indices_sorted_asc (sortedAsc l) (List.sorted_insertionSort _ l) x,
    countP_sortedAsc, count_sortedAsc]

theorem tiePositions_sortedDesc (l : List ℚ) (x : ℚ) :
    tiePositions (sortedDesc l) x =
      (List.range' (l.countP (fun y => decide (x < y))) (l.count x)).map (fun n => n + 1) := by
  unfold tiePositions
  rw [filter_indices_sorted_desc (sortedDesc l) (List.sorted_insertionSort _ l) x,
    countP_sortedDesc, count_sortedDesc]

theorem rankAvg_of_positions (s : List ℚ) (x : ℚ) (k m : ℕ) (hm : 0 < m)
    (hpos : tiePositions s x = (List.range' k m).map (fun n => n + 1)) :
    rankAvg s x = (k : ℚ) + ((m : ℚ) + 1) / 2 := by
  unfold rankAvg
  rw [hpos, map_succ_range']
  have hlen : ((List.range' (k + 1) m).length : ℚ) = (m : ℚ) := by
    rw [List.length_range']
  have hsum := sum_range'_cast (k + 1) m
  rw [hlen, div_eq_iff (by exact_mod_cast hm.ne')]
  push_cast at hsum ⊢
  linear_combination hsum / 2

theorem rankAvg_sortedAsc (l : List ℚ) (x : ℚ) (hx : x ∈ l) :
    rankAvg (sortedAsc l) x =
      (l.countP (fun y => decide (y < x)) : ℚ) + ((l.count x : ℚ) + 1) / 2 :=
  rankAvg_of_positions (sortedAsc l) x _ _ (List.count_pos_iff.mpr hx)
    (tiePositions_sortedAsc l x)

theorem rankAvg_sortedDesc (l : List ℚ) (x : ℚ) (hx : x ∈ l) :
    rankAvg (sortedDesc l) x =
      (l.countP (fun y => decide (x < y)) : ℚ) + ((l.count x : ℚ) + 1) / 2 :=
  rankAvg_of_positions (sortedDesc l) x _ _ (List.count_pos_iff.mpr hx)
    (tiePositions_sortedDesc l x)

theorem filterMap_id_sum (L : List (Option ℚ)) :
    (L.filterMap id).sum = (L.map (fun o => o.getD 0)).sum := by
  induction L with
  | nil => rfl
  | cons o t ih => cases o <;> simp [ih]

theorem truthy_some_iff (q : ℚ) : truthy (some q) = true ↔ q ≠ 0 := by
  simp [truthy]

/- Structural lemmas about fetch_one. -/

theorem fetch_one_eq_mkRow (name : String) (i : Info) (b t d e : ℚ)
    (hb : getBeta i = some b) (ht : getTaxRate i = some t)
    (hd : getTotalDebt i = some d) (he : getTotalEquity i = some e) :
    fetch_one name i = some (mkRow name i b t d e) := by
  unfold fetch_one mkRow
  rw [hb, ht, hd, he]
  simp only [Option.some_bind, Option.map_some']
  by_cases h1 : truthy (if truthy i.ebit then i.ebit else i.ebitda) = true
  · simp only [h1, if_true, Option.some_bind]
    by_cases h2 : (d + e != 0) = true
    · simp [h1, h2]
    · simp [h1, h2]
  · simp only [h1, if_false, Option.some_bind]
    by_cases h2 : (d + e != 0) = true
    · simp [h1, h2]
    · simp [h1, h2]

theorem fetch_none_of_beta (name : String) (i : Info) (hb : getBeta i = none) :
    fetch_one name i = none := by
  unfold fetch_one
  rw [hb]
  rfl

theorem fetch_none_of_debt (name : String) (i : Info) (b : ℚ)
    (hb : getBeta i = some b) (hd : getTotalDebt i = none) :
    fetch_one name i = none := by
  unfold fetch_one
  rw [hb, hd]
  simp only [Option.some_bind]
  split
  · cases htr : getTaxRate i with
    | none => rfl
    | some t => simp
  · simp

theorem fetch_none_of_equity (name : String) (i : Info) (b d : ℚ)
    (hb : getBeta i = some b) (hd : getTotalDebt i = some d)
    (he : getTotalEquity i = none) :
    fetch_one name i = none := by
  unfold fetch_one
  rw [hb, hd, he]
  simp only [Option.some_bind]
  split
  · cases htr : getTaxRate i with
    | none => rfl
    | some t => simp
  · simp

theorem fetch_none_of_tax_ebit (name : String) (i : Info) (b : ℚ)
    (hb : getBeta i = some b) (htr : getTaxRate i = none)
    (heb : truthy (if truthy i.ebit then i.ebit else i.ebitda) = true) :
    fetch_one name i = none := by
  unfold fetch_one
  rw [hb, htr]
  simp only [Option.some_bind, heb, if_true]
  rfl

theorem fetch_none_of_tax_ic (name : String) (i : Info) (b d e : ℚ)
    (hb : getBeta i = some b) (hd : getTotalDebt i = some d)
    (he : getTotalEquity i = some e) (htr : getTaxRate i = none)
    (heb : truthy (if truthy i.ebit then i.ebit else i.ebitda) = false)
    (hic : d + e ≠ 0) :
    fetch_one name i = none := by
  unfold fetch_one
  rw [hb, htr, hd, he]
  simp only [Option.some_bind, heb, if_false, Option.none_bind, bne_iff_ne, ne_eq, hic,
    not_false_eq_true, if_true]
  rfl

theorem fetch_one_eq_mkRow_no_tax (name : String) (i : Info) (b d e : ℚ)
    (hb : getBeta i = some b) (hd : getTotalDebt i = some d)
    (he : getTotalEquity i = some e) (htr : getTaxRate i = none)
    (heb : truthy (if truthy i.ebit then i.ebit else i.ebitda) = false)
    (hic : d + e = 0) :
    fetch_one name i = some (mkRow name i b 0 d e) := by
  unfold fetch_one mkRow
  rw [hb, htr, hd, he]
  simp [heb, hic]

theorem fetch_one_inv (name : String) (i : Info) (row : Row)
    (h : fetch_one name i = some row) :
    ∃ b t d e, row = mkRow name i b t d e := by
  cases hb : getBeta i with
  | none => rw [fetch_none_of_beta name i hb] at h; cases h
  | some b =>
  cases hd : getTotalDebt i with
  | none => rw [fetch_none_of_debt name i b hb hd] at h; cases h
  | some d =>
  cases he : getTotalEquity i with
  | none => rw [fetch_none_of_equity name i b d hb hd he] at h; cases h
  | some e =>
  cases htr : getTaxRate i with
  | some t =>
      rw [fetch_one_eq_mkRow name i b t d e hb htr hd he] at h
      exact ⟨b, t, d, e, (Option.some.injEq _ _ ▸ h).symm⟩
  | none =>
      cases heb : truthy (if truthy i.ebit then i.ebit else i.ebitda) with
      | true => rw [fetch_none_of_tax_ebit name i b hb htr heb] at h; cases h
      | false =>
          by_cases hic : d + e = 0
          · rw [fetch_one_eq_mkRow_no_tax name i b d e hb hd he htr heb hic] at h
            exact ⟨b, 0, d, e, (Option.some.injEq _ _ ▸ h).symm⟩
          · rw [fetch_none_of_tax_ic name i b d e hb hd he htr heb hic] at h; cases h

theorem mkRow_eq_consistency (name : String) (i : Info) (b t d e : ℚ) :
    ((mkRow name i b t d e).eqFlag = "✔" ↔ (mkRow name i b t d e).eqScore = some 1) ∧
    ((mkRow name i b t d e).eqFlag = "✖" ↔ (mkRow name i b t d e).eqScore = some 0) ∧
    ((mkRow name i b t d e).eqFlag = "N/A" ↔ (mkRow name i b t d e).eqScore = none) := by
  rcases hq : earnings_quality i.netIncome i.cfo with _ | hb2
  · simp [mkRow, hq]
  · cases hb2 <;> simp [mkRow, hq]

theorem fetch_infoW : fetch_one "X" infoW = some rowW := by
  norm_num [fetch_one, earnings_quality, truthy, getBeta, getTaxRate, getTotalDebt,
    getTotalEquity, infoW, blankInfo, rowW, risk_free_rate, market_risk_premium,
    assumed_eps_growth, assumed_cost_of_debt]

/- Claim theorems. -/

/-- C1 (amended): each per-factor score of an entity with a defined value
is the pandas default average-method rank over the defined values of
that column, that is the number of strictly better values plus the tie
count plus one over two, for the four ascending factors and the three
descending factors; an entity with an unavailable value gets no score
for that factor, and the Total Score is the sum of the factor scores
with a missing score counted as 0. -/
theorem factor_scores_average_rank (rows : List Row) (r : Row) (hr : r ∈ rows) :
    (∀ f ∈ ascFactors, ∀ x : ℚ, f r = some x →
      colScoreAsc rows f r =
        some (((rows.filterMap f).countP (fun y => decide (y < x)) : ℚ) +
          (((rows.filterMap f).count x : ℚ) + 1) / 2)) ∧
    (∀ f ∈ descFactors, ∀ x : ℚ, f r = some x →
      colScoreDesc rows f r =
        some (((rows.filterMap f).countP (fun y => decide (x < y)) : ℚ) +
          (((rows.filterMap f).count x : ℚ) + 1) / 2)) ∧
    (∀ f : Row → Option ℚ, f r = none →
      colScoreAsc rows f r = none ∧ colScoreDesc rows f r = none) ∧
    totalScore rows r = some (((factorScores rows r).map (fun o => o.getD 0)).sum) := by
  refine ⟨?_, ?_, ?_, ?_⟩
  · intro f _ x hfx
    have hx : x ∈ rows.filterMap f := List.mem_filterMap.mpr ⟨r, hr, hfx⟩
    simp [colScoreAsc, hfx, rankAvg_sortedAsc _ _ hx]
  · intro f _ x hfx
    have hx : x ∈ rows.filterMap f := List.mem_filterMap.mpr ⟨r, hr, hfx⟩
    simp [colScoreDesc, hfx, rankAvg_sortedDesc _ _ hx]
  · intro f hfn
    simp [colScoreAsc, colScoreDesc, hfn]
  · rw [totalScore, filterMap_id_sum]

/-- C1 counterexample: on the PEG column 2, 2, 5 the code gives the first
entity the score 3 over 2, the average of the tied positions 1 and 2,
while the minimum position of its tie group is 1; so ties do NOT all
receive the minimum position as the claim states. -/
theorem c1_tie_counterexample :
    colScoreAsc exC1 Row.peg exC1r1 = some (3 / 2) ∧
    rankMin (sortedAsc (exC1.filterMap Row.peg)) 2 = 1 ∧ ((3 : ℚ) / 2) ≠ 1 := by
  refine ⟨?_, ?_, ?_⟩
  · with_unfolding_all decide
  · with_unfolding_all decide
  · norm_num

/-- C1 witness: the amended statement evaluated on the concrete PEG
column 2, 2, 5. -/
theorem c1_witness :
    colScoreAsc exC1 Row.peg exC1r1 =
      some (((exC1.filterMap Row.peg).countP (fun y => decide (y < 2)) : ℚ) +
        (((exC1.filterMap Row.peg).count 2 : ℚ) + 1) / 2) :=
  (factor_scores_average_rank exC1 exC1r1 (by with_unfolding_all decide)).1 Row.peg
    (by simp [ascFactors]) 2 (by with_unfolding_all decide)

/-- C2 (code bug): an entity whose eight per-factor scores are all
unavailable still receives Total Score 0, because the pandas row sum
turns an all-NaN row into 0 rather than NaN, so the notna filter at
line 136 keeps it; with the lowest Total Score it receives Rank 1 and
appears in the ranked output, contradicting the claim that it is
dropped. -/
theorem c2_all_unavailable_kept :
    ((factorScores exC2 exC2b).all fun o => o.isNone) = true ∧
    totalScore exC2 exC2b = some 0 ∧
    exC2b ∈ rankedRows exC2 ∧
    finalRank exC2 exC2b = some 1 ∧
    exC2b ∈ rankedOutput exC2 := by
  refine ⟨?_, ?_, ?_, ?_, ?_⟩ <;> with_unfolding_all decide

/-- C3 (amended): for a record in which every field is present with a
non-null value and the truthiness-guarded quantities are nonzero, namely
positive trailing P/E, return on equity, dividend yield, market cap and
ebit, nonzero net income and CFO, tax rate below 1, nonnegative beta and
total debt, positive total equity, the derived row has no unavailable
field, ROE percent equals returnOnEquity times 100, and CoE percent
equals exactly (0.065 + beta times 0.06) times 100.  The unamended claim
fails when a present field is 0, see the counterexample. -/
theorem c3_full_positive_record (name : String) (i : Info)
    (pe ipe pbv dev dy mc cp b eb ebd t d e ni cf roe : ℚ)
    (h1 : i.trailingPE = some pe) (h1p : 0 < pe)
    (h2 : i.forwardPE = some ipe)
    (h3 : i.priceToBook = some pbv)
    (h4 : i.debtToEquity = some dev)
    (h5 : i.dividendYield = some dy) (h5p : 0 < dy)
    (h6 : i.marketCap = some mc) (h6p : 0 < mc)
    (h7 : i.currentPrice = some cp)
    (h8 : i.beta = some (some b)) (h8p : 0 ≤ b)
    (h9 : i.ebit = some eb) (h9p : 0 < eb)
    (h10 : i.ebitda = some ebd)
    (h11 : i.taxRate = some (some t)) (h11p : t < 1)
    (h12 : i.totalDebt = some (some d)) (h12p : 0 ≤ d)
    (h13 : i.totalStockholderEquity = some (some e)) (h13p : 0 < e)
    (h14 : i.netIncome = some ni) (h14p : ni ≠ 0)
    (h15 : i.cfo = some cf) (h15p : cf ≠ 0)
    (h16 : i.returnOnEquity = some roe) (h16p : 0 < roe) :
    ∃ row : Row, fetch_one name i = some row ∧
      row.coePct = (65 / 1000 + b * (6 / 100)) * 100 ∧
      row.roePct = some (roe * 100) ∧
      row.pe = some pe ∧ row.industryPE = some ipe ∧ row.pb = some pbv ∧
      row.de = some dev ∧ row.price = some cp ∧
      row.peg = some (pe / (assumed_eps_growth * 100)) ∧
      row.roeSpread.isSome = true ∧ row.roic.isSome = true ∧
      row.waccPct.isSome = true ∧ row.roicSpread.isSome = true ∧
      row.divYieldPct = some (dy * 100) ∧ row.mcapCr = some (mc / 10000000) ∧
      row.eqScore.isSome = true ∧ row.eqFlag ≠ "N/A" := by
  have hb' : getBeta i = some b := by simp [getBeta, h8]
  have ht' : getTaxRate i = some t := by simp [getTaxRate, h11]
  have hd' : getTotalDebt i = some d := by simp [getTotalDebt, h12]
  have he' : getTotalEquity i = some e := by simp [getTotalEquity, h13]
  refine ⟨mkRow name i b t d e, fetch_one_eq_mkRow name i b t d e hb' ht' hd' he', ?_⟩
  have hcoe : (0 : ℚ) < risk_free_rate + b * market_risk_premium := by
    have : (0 : ℚ) ≤ b * market_risk_premium :=
      mul_nonneg h8p (by norm_num [market_risk_premium])
    have : (0 : ℚ) < risk_free_rate := by norm_num [risk_free_rate]
    linarith
  have hroe100 : roe * 100 ≠ 0 := by positivity
  have h1t : (0 : ℚ) < 1 - t := by linarith
  have hnopat : (0 : ℚ) < eb * (1 - t) := mul_pos h9p h1t
  have hic : (0 : ℚ) < d + e := by linarith
  have hroicv : (0 : ℚ) < eb * (1 - t) / (d + e) * 100 :=
    mul_pos (div_pos hnopat hic) (by norm_num)
  have hwacc : (0 : ℚ) <
      e / (d + e) * (65 / 1000 + b * (6 / 100)) +
        d / (d + e) * assumed_cost_of_debt * (1 - t) := by
    have hpos : (0 : ℚ) < e / (d + e) * (65 / 1000 + b * (6 / 100)) :=
      mul_pos (div_pos h13p hic)
        (by norm_num [risk_free_rate, market_risk_premium] at hcoe; linarith)
    have hnn : (0 : ℚ) ≤ d / (d + e) * assumed_cost_of_debt * (1 - t) :=
      mul_nonneg (mul_nonneg (div_nonneg h12p hic.le)
        (by norm_num [assumed_cost_of_debt])) h1t.le
    linarith
  rcases Bool.eq_false_or_eq_true (decide (ni ≤ cf)) with hq | hq <;>
    simp [mkRow, earnings_quality, truthy, bne_iff_ne, h1, h2, h3, h4, h5, h6, h7, h9,
      h10, h14, h15, h16, hq, h1p.ne', h5p.ne', h6p.ne', h9p.ne', h14p, h15p, h16p.ne',
      hroe100, hnopat.ne', hic.ne', hroicv.ne', hwacc.ne', risk_free_rate,
      market_risk_premium]

/-- C3 counterexample: infoC3 has every field present, yet because
returnOnEquity is the valid number 0 and the code tests it for Python
truthiness, the derived ROE percent cell is unavailable, refuting the
claim that a record with every field present derives no unavailable
field, in particular that ROE percent is defined when returnOnEquity is
present and 0. -/
theorem c3_zero_roe_counterexample :
    infoC3.returnOnEquity = some 0 ∧
    (fetch_one "KNR Constructions" infoC3).map Row.roePct = some none := by
  refine ⟨rfl, ?_⟩
  norm_num [fetch_one, earnings_quality, truthy, getBeta, getTaxRate, getTotalDebt,
    getTotalEquity, infoC3, risk_free_rate, market_risk_premium, assumed_eps_growth,
    assumed_cost_of_debt]

/-- C3 witness: the amended statement evaluated at a concrete record
with every field present and positive. -/
theorem c3_witness :
    ∃ row : Row, fetch_one "X" infoC3w = some row ∧
      row.coePct = ((65 : ℚ) / 1000 + 1 * (6 / 100)) * 100 ∧
      row.roePct = some (15 / 100 * 100) ∧
      row.pe = some 10 ∧ row.industryPE = some 12 ∧ row.pb = some 2 ∧
      row.de = some 1 ∧ row.price = some 100 ∧
      row.peg = some (10 / (assumed_eps_growth * 100)) ∧
      row.roeSpread.isSome = true ∧ row.roic.isSome = true ∧
      row.waccPct.isSome = true ∧ row.roicSpread.isSome = true ∧
      row.divYieldPct = some (2 / 100 * 100) ∧ row.mcapCr = some (1000000000 / 10000000) ∧
      row.eqScore.isSome = true ∧ row.eqFlag ≠ "N/A" :=
  c3_full_positive_record "X" infoC3w 10 12 2 1 (2 / 100) 1000000000 100 1 100 120 (1 / 4)
    50 50 10 12 (15 / 100) rfl (by norm_num) rfl rfl rfl rfl (by norm_num) rfl
    (by norm_num) rfl rfl (by norm_num) rfl (by norm_num) rfl rfl (by norm_num) rfl
    (by norm_num) rfl (by norm_num) rfl (by norm_num) rfl (by norm_num) rfl (by norm_num)

/-- C4 (amended): the flag is good exactly when net income and CFO are
both present AND both nonzero and CFO is at least net income; poor
exactly when both are present and nonzero and CFO is below net income;
unknown in every other case, including when a present value is 0; the
three cases are exhaustive and mutually exclusive.  The unamended claim,
which requires only presence, fails at net income 0, see the
counterexample. -/
theorem c4_eq_exhaustive (ni cf : Option ℚ) :
    (earnings_quality ni cf = some true ↔
      ∃ n c, ni = some n ∧ cf = some c ∧ n ≠ 0 ∧ c ≠ 0 ∧ n ≤ c) ∧
    (earnings_quality ni cf = some false ↔
      ∃ n c, ni = some n ∧ cf = some c ∧ n ≠ 0 ∧ c ≠ 0 ∧ c < n) ∧
    (earnings_quality ni cf = none ↔
      ¬∃ n c, ni = some n ∧ cf = some c ∧ n ≠ 0 ∧ c ≠ 0) := by
  cases ni with
  | none => simp [earnings_quality, truthy]
  | some n =>
      cases cf with
      | none => simp [earnings_quality, truthy]
      | some c =>
          by_cases hn : n = 0
          · simp [earnings_quality, truthy, hn]
          · by_cases hc : c = 0
            · simp [earnings_quality, truthy, hn, hc]
            · rcases le_or_lt n c with hle | hlt
              · simp [earnings_quality, truthy, hn, hc, hle, not_lt.mpr hle]
              · simp [earnings_quality, truthy, hn, hc, hlt, not_le.mpr hlt]

/-- C4 counterexample: net income 0 and CFO 5 are both present and CFO is
at least net income, so the claim says the flag is good, but the code
evaluates the Python condition net_income and cfo as falsy at 0 and
returns the unknown flag. -/
theorem c4_zero_counterexample :
    earnings_quality (some 0) (some 5) = none ∧ ((0 : ℚ) ≤ 5) := by
  refine ⟨rfl, ?_⟩
  norm_num

/-- C5 (amended): derivation yields a row whose CoE percent equals
(risk free rate plus beta times market risk premium) times 100, with
beta equal to 1 when the beta key is absent, for every record in which
none of the four defaulted keys, beta, taxRate, totalDebt and
totalStockholderEquity, is present with a null value.  When the beta key
is present with null the derivation raises and produces no CoE at all,
see the counterexample, so the unamended always-computable claim is
false. -/
theorem c5_coe_defined (name : String) (i : Info)
    (hb : i.beta ≠ some none) (ht : i.taxRate ≠ some none)
    (hd : i.totalDebt ≠ some none) (he : i.totalStockholderEquity ≠ some none) :
    ∃ row : Row, fetch_one name i = some row ∧
      row.coePct = (risk_free_rate + betaEff i * market_risk_premium) * 100 ∧
      (i.beta = none → betaEff i = 1) := by
  obtain ⟨b, hb'⟩ : ∃ b, getBeta i = some b := by
    cases hbv : i.beta with
    | none => exact ⟨1, by simp [getBeta, hbv]⟩
    | some v =>
        cases v with
        | none => exact absurd hbv hb
        | some q => exact ⟨q, by simp [getBeta, hbv]⟩
  obtain ⟨t, ht'⟩ : ∃ t, getTaxRate i = some t := by
    cases htv : i.taxRate with
    | none => exact ⟨25 / 100, by simp [getTaxRate, htv]⟩
    | some v =>
        cases v with
        | none => exact absurd htv ht
        | some q => exact ⟨q, by simp [getTaxRate, htv]⟩
  obtain ⟨d, hd'⟩ : ∃ d, getTotalDebt i = some d := by
    cases hdv : i.totalDebt with
    | none => exact ⟨0, by simp [getTotalDebt, hdv]⟩
    | some v =>
        cases v with
        | none => exact absurd hdv hd
        | some q => exact ⟨q, by simp [getTotalDebt, hdv]⟩
  obtain ⟨e, he'⟩ : ∃ e, getTotalEquity i = some e := by
    cases hev : i.totalStockholderEquity with
    | none => exact ⟨0, by simp [getTotalEquity, hev]⟩
    | some v =>
        cases v with
        | none => exact absurd hev he
        | some q => exact ⟨q, by simp [getTotalEquity, hev]⟩
  refine ⟨mkRow name i b t d e, fetch_one_eq_mkRow name i b t d e hb' ht' hd' he', ?_, ?_⟩
  · have hbe : betaEff i = b := by simp [betaEff, hb']
    rw [hbe]
    rfl
  · intro h0
    simp [betaEff, getBeta, h0]

/-- C5 counterexample: a record whose beta key is present with a null
value makes the loop body raise, the entity is skipped, and no cost of
equity is produced, contradicting the claim that derivation never fails
to produce CoE and treats a null beta as 1. -/
theorem c5_null_beta_counterexample :
    infoC5.beta = some none ∧ fetch_one "KNR Constructions" infoC5 = none :=
  ⟨rfl, fetch_none_of_beta _ _ (by rfl)⟩

/-- C5 witness: the amended statement at a record with every key absent. -/
theorem c5_witness :
    ∃ row : Row, fetch_one "X" blankInfo = some row ∧
      row.coePct = (risk_free_rate + betaEff blankInfo * market_risk_premium) * 100 ∧
      (blankInfo.beta = none → betaEff blankInfo = 1) :=
  c5_coe_defined "X" blankInfo (by simp [blankInfo]) (by simp [blankInfo])
    (by simp [blankInfo]) (by simp [blankInfo])

/-- C6 (confirmed): the final Rank of a kept entity is the ascending
1-based min-method competition rank of its Total Score, namely one plus
the number of strictly smaller Total Scores; entities with equal Total
Scores receive the identical Rank; and an entity whose Total Score is
minimal receives Rank 1. -/
theorem final_rank_min_competition (rows : List Row) (r : Row) (t : ℚ)
    (hr : r ∈ rankedRows rows) (ht : totalScore rows r = some t) :
    finalRank rows r = some ((totalScores rows).countP (fun y => decide (y < t)) + 1) ∧
    (∀ r' t', r' ∈ rankedRows rows → totalScore rows r' = some t' → t' = t →
      finalRank rows r' = finalRank rows r) ∧
    ((∀ y ∈ totalScores rows, t ≤ y) → finalRank rows r = some 1) := by
  have hmem : t ∈ totalScores rows := List.mem_filterMap.mpr ⟨r, hr, ht⟩
  have h1 : finalRank rows r = some (rankMin (sortedAsc (totalScores rows)) t) := by
    simp [finalRank, ht]
  refine ⟨?_, ?_, ?_⟩
  · rw [h1, rankMin_sortedAsc _ _ hmem]
  · intro r' t' hr' ht' heq
    subst heq
    simp [finalRank, ht', ht]
  · intro hmin
    have h0 : (totalScores rows).countP (fun y => decide (y < t)) = 0 :=
      List.countP_eq_zero.mpr (fun y hy => by simp [not_lt.mpr (hmin y hy)])
    rw [h1, rankMin_sortedAsc _ _ hmem, h0]

/-- C6 witness: Total Scores 3, 3, 5 receive Ranks 1, 1, 3, and the
characterization applied at the first entity. -/
theorem c6_witness :
    (finalRank exC6 exC6r1 = some 1 ∧ finalRank exC6 exC6r2 = some 1 ∧
      finalRank exC6 exC6r3 = some 3) ∧
    finalRank exC6 exC6r1 =
      some ((totalScores exC6).countP (fun y => decide (y < 3)) + 1) :=
  ⟨by with_unfolding_all decide,
    (final_rank_min_competition exC6 exC6r1 3 (by with_unfolding_all decide)
      (by with_unfolding_all decide)).1⟩

/-- C8 (confirmed): when the fetched collection entering the ranking
stage is empty, the module-level run surfaces the terminal no-data error
and produces no ranked table at all. -/
theorem c8_empty_terminal (inputs : List (String × Info))
    (h : fetch_stock_data inputs = []) :
    runDashboard inputs = Except.error "Failed to fetch stock data." := by
  simp [runDashboard, h]

/-- C8 witness: one ticker whose derivation raises leaves the DataFrame
empty and the run stops with the error. -/
theorem c8_witness :
    runDashboard [("DCX Systems", infoC8)] = Except.error "Failed to fetch stock data." :=
  c8_empty_terminal [("DCX Systems", infoC8)]
    (by simp [fetch_stock_data,
      fetch_none_of_debt "DCX Systems" infoC8 1 (by rfl) (by rfl)])

/-- C9 (confirmed): in every row a successful derivation produces, the
earnings-quality display flag and the numeric score agree: the check
mark exactly when the score is 1, the cross exactly when the score is 0,
and N/A exactly when the score is unavailable. -/
theorem eq_flag_score_consistent (name : String) (i : Info) (row : Row)
    (h : fetch_one name i = some row) :
    (row.eqFlag = "✔" ↔ row.eqScore = some 1) ∧
    (row.eqFlag = "✖" ↔ row.eqScore = some 0) ∧
    (row.eqFlag = "N/A" ↔ row.eqScore = none) := by
  obtain ⟨b, t, d, e, hrow⟩ := fetch_one_inv name i row h
  subst hrow
  exact mkRow_eq_consistency name i b t d e

/-- C9 witness: the consistency statement at a concrete successful
derivation whose flag is the check mark and whose score is 1. -/
theorem c9_witness :
    (rowW.eqFlag = "✔" ↔ rowW.eqScore = some 1) ∧
    (rowW.eqFlag = "✖" ↔ rowW.eqScore = some 0) ∧
    (rowW.eqFlag = "N/A" ↔ rowW.eqScore = none) :=
  eq_flag_score_consistent "X" infoW rowW fetch_infoW

/-- C10 (confirmed): a row whose PEG, ROE spread, ROIC spread, D/E and
dividend yield are all unavailable and whose earnings-quality flag is
N/A gets no positives and exactly the four cautions, in the fixed order
PEG, ROE versus CoE, ROIC versus WACC, high debt; no dividend and no
earnings-quality statement is emitted. -/
theorem c10_all_unavailable_summary (row : Row)
    (h1 : row.peg = none) (h2 : row.roeSpread = none) (h3 : row.roicSpread = none)
    (h4 : row.de = none) (h5 : row.divYieldPct = none) (h6 : row.eqFlag = "N/A") :
    generate_summary row =
      ([], ["⚠ PEG ≥ 1 or unavailable", "⚠ ROE ≤ CoE", "⚠ ROIC ≤ WACC", "⚠ High Debt"]) := by
  simp [generate_summary, someLt, someGt, h1, h2, h3, h4, h5, h6]

/-- C10 witness: the summary of an entirely blank row. -/
theorem c10_witness :
    generate_summary (blankRow "Z") =
      ([], ["⚠ PEG ≥ 1 or unavailable", "⚠ ROE ≤ CoE", "⚠ ROIC ≤ WACC", "⚠ High Debt"]) :=
  c10_all_unavailable_summary (blankRow "Z") rfl rfl rfl rfl rfl rfl
